import Mathlib

/-!
Verification development for the `becquerel` isotope module
(`src/becquerel/tools/isotope.py`).

The Python source is shallowly embedded: pure functions become Lean
functions, raised exceptions become `Except Err` results, Python floats
and datetimes become real numbers (a datetime is its timestamp in
seconds), and the `elif` chains and short-circuit evaluation of the
source are mirrored by nested matches and conditionals in source order.
The external collaborators that are not part of `src/` (the element
database, the datetime normalization utility) are modelled from the
specification and are marked as such in their doc comments.
-/

set_option autoImplicit false

/-- Python exceptions raised (or raisable) by the embedded code.
`isotopeError` stands for `IsotopeError` (which also covers the spec's
`ParseError`, `QuantityInputError` and `UnsupportedOperationError`
taxonomy), the others for the Python builtins of the same name. -/
inductive Err where
  | isotopeError (msg : String)
  | valueError (msg : String)
  | typeError (msg : String)
  | attributeError (msg : String)
  | indexError
  | zeroDivisionError
  | notImplementedError (msg : String)
  deriving Repr, DecidableEq

/-- An element record as produced by the element database. -/
structure Element where
  symbol : String
  name : String
  Z : ℤ
  deriving Repr, DecidableEq

/-- Modelled from the spec: the external element database (module
`becquerel.tools.element`, not under `src/`) maps a symbol or a name,
case-insensitively, to the element data `{symbol, name, Z, ...}`.  The
table holds the real periodic-table entries exercised by the claims. -/
def elementTable : List Element :=
  [⟨"H", "Hydrogen", 1⟩, ⟨"He", "Helium", 2⟩, ⟨"B", "Boron", 5⟩,
   ⟨"C", "Carbon", 6⟩, ⟨"N", "Nitrogen", 7⟩, ⟨"O", "Oxygen", 8⟩,
   ⟨"F", "Fluorine", 9⟩, ⟨"Ne", "Neon", 10⟩, ⟨"Cl", "Chlorine", 17⟩,
   ⟨"Fe", "Iron", 26⟩, ⟨"Tc", "Technetium", 43⟩, ⟨"I", "Iodine", 53⟩,
   ⟨"Hf", "Hafnium", 72⟩, ⟨"Th", "Thorium", 90⟩, ⟨"U", "Uranium", 92⟩]

/-- Python `str.upper`, character by character. -/
def pyUpper (s : String) : String :=
  String.mk (s.toList.map Char.toUpper)

/-- Python `str.lower`, character by character. -/
def pyLower (s : String) : String :=
  String.mk (s.toList.map Char.toLower)

/-- Python `str.split(sep)` for a one-character separator, on the
character list. -/
def splitOnChar (sep : Char) : List Char → List (List Char)
  | [] => [[]]
  | c :: cs =>
    match splitOnChar sep cs with
    | [] => [[]]
    | h :: t => if c = sep then [] :: h :: t else (c :: h) :: t

/-- Python `str.split(sep)` for a one-character separator. -/
def pySplit (sep : Char) (s : String) : List String :=
  (splitOnChar sep s.toList).map String.mk

/-- Modelled from the spec: `element.Element(identifier)` succeeds iff the
identifier is a known symbol or name (case-insensitive) and returns the
canonical record. -/
def elementLookup (s : String) : Option Element :=
  elementTable.find?
    (fun e => pyUpper s == pyUpper e.symbol || pyUpper s == pyUpper e.name)

/-- Python `str.isalpha`: nonempty and all characters alphabetic. -/
def pyIsAlpha (s : String) : Bool :=
  s.length > 0 && s.toList.all Char.isAlpha

/-- Decimal value of a list of digit characters (the value Python's
`int()` returns on an all-digit string). -/
def digitsVal (l : List Char) : ℤ :=
  Int.ofNat (l.foldl (fun a c => 10 * a + (c.toNat - 48)) 0)

/-- Python `int(s)` on the strings arising here: succeeds exactly on
nonempty all-digit strings. -/
def parsePyInt (s : String) : Option ℤ :=
  if s.length > 0 && s.toList.all Char.isDigit then some (digitsVal s.toList) else none

/- Error messages of `isotope.py` (format placeholders omitted). -/

def tooManyHyphensMsg : String := "Too many hyphens in isotope string"

def noMassNumberMsg : String := "Could not find mass number for isotope"

def noElementMsg : String := "Could not find element for isotope"

def invalidElementMsg : String := "Element name or symbol is invalid"

def tooManyMsMsg : String := "Too many ms in mass number"

def massConvertMsg : String := "Mass number cannot be converted to int"

def metastableNumberMsg : String := "Metastable level must be a number"

/-- The `elif tokens[0][0].isdigit() and tokens[1].isalpha()` arm of the
hyphenated branch of `_split_element_mass` (indexing an empty token
raises `IndexError`, as in Python). -/
def hyphenElif (t0 t1 : String) : Except Err (String × String) :=
  match t0.toList.head? with
  | none => Except.error Err.indexError
  | some c =>
    if c.isDigit && pyIsAlpha t1 then Except.ok (t1, t0)
    else Except.error (Err.isotopeError noMassNumberMsg)

/-- The hyphenated branch of `_split_element_mass`, lines 48-56: decide
which of the two tokens is the element and which the mass number. -/
def hyphenSplit (t0 t1 : String) : Except Err (String × String) :=
  if pyIsAlpha t0 then
    match t1.toList.head? with
    | none => Except.error Err.indexError
    | some c =>
      if c.isDigit then Except.ok (t0, t1)
      else hyphenElif t0 t1
  else hyphenElif t0 t1

/-- All splits of the character list into a nonempty prefix `arg[:j]` and
suffix `arg[j:]`, `j = 1 .. len-1`, as pairs `(arg[:j], arg[j:])`. -/
def splitsOf (l : List Char) : List (List Char × List Char) :=
  (List.range' 1 (l.length - 1)).map (fun j => (l.take j, l.drop j))

/-- One iteration of the candidate loop of `_split_element_mass`
(lines 65-73): classify `(p1, p2) = (arg[j:], arg[:j])` by their leading
characters into `(p_element, p_mass)`, or skip. -/
def candidateOf (p1 p2 : List Char) : Option (List Char × List Char) :=
  match p1, p2 with
  | c1 :: _, c2 :: _ =>
    if c1.isDigit && c2.isAlpha then some (p2, p1)
    else if c1.isAlpha && c2.isDigit then some (p1, p2)
    else none
  | _, _ => none

/-- The resolved candidate list of the hyphen-free branch (lines 60-79):
element/mass splits whose element part resolves in the element database,
recorded as (canonical symbol, mass string) in split order. -/
def resolvedCandidates (l : List Char) : List (String × String) :=
  (splitsOf l).filterMap (fun pr =>
    match candidateOf pr.2 pr.1 with
    | none => none
    | some (pe, pm) =>
      match elementLookup (String.mk pe) with
      | none => none
      | some e => some (e.symbol, String.mk pm))

/-- Lines 83-89: among the resolved candidates choose the one with the
longest (canonical) element identifier; a strictly longer one replaces
the current choice, so the earliest of equal length wins. -/
def chooseLongest (cands : List (String × String)) : String × String :=
  cands.foldl (fun acc c => if acc.1.length < c.1.length then c else acc) ("", "")

/-- `_split_element_mass` before its final lookup validation. -/
def splitRaw (arg : String) : Except Err (String × String) :=
  if arg.toList.contains '-' then
    match pySplit '-' arg with
    | [t0, t1] => hyphenSplit t0 t1
    | _ => Except.error (Err.isotopeError tooManyHyphensMsg)
  else
    match resolvedCandidates arg.toList with
    | [] => Except.error (Err.isotopeError noElementMsg)
    | c :: cs => Except.ok (chooseLongest (c :: cs))

/-- `_split_element_mass` (lines 20-96). -/
def split_element_mass (arg : String) : Except Err (String × String) :=
  match splitRaw arg with
  | Except.error e => Except.error e
  | Except.ok (eid, mi) =>
    match elementLookup eid with
    | none => Except.error (Err.isotopeError invalidElementMsg)
    | some _ => Except.ok (eid, mi)

/-- `_split_mass_isomer` (lines 99-143). -/
def split_mass_isomer (arg : String) : Except Err (ℤ × String) :=
  let low := pyLower arg
  if low.toList.contains 'm' then
    match pySplit 'm' low with
    | [t0, t1] =>
      match parsePyInt t0 with
      | none => Except.error (Err.isotopeError massConvertMsg)
      | some aa =>
        if t1.length > 0 then
          if t1.toList.all Char.isDigit then Except.ok (aa, "m" ++ t1)
          else Except.error (Err.isotopeError metastableNumberMsg)
        else Except.ok (aa, "m")
    | _ => Except.error (Err.isotopeError tooManyMsMsg)
  else
    match parsePyInt arg with
    | none => Except.error (Err.isotopeError massConvertMsg)
    | some aa => Except.ok (aa, "")

/-- `parse_isotope` (lines 146-164). -/
def parse_isotope (arg : String) : Except Err (String × ℤ × String) :=
  match split_element_mass arg with
  | Except.error e => Except.error e
  | Except.ok (eid, mi) =>
    match split_mass_isomer mi with
    | Except.error e => Except.error e
    | Except.ok (aa, mm) => Except.ok (eid, aa, mm)

/-- An isomer-level argument to `Isotope._init_m`: Python `None`, an
integer, or a string. -/
inductive MArg where
  | noneA
  | intA (n : ℤ)
  | strA (s : String)
  deriving Repr, DecidableEq

/-- A constructed `Isotope` (lines 167-309): the element identity fields
plus mass number `A`, neutron number `N`, isomer level `M` and isomer
code string `m`. -/
structure Isotope where
  symbol : String
  name : String
  Z : ℤ
  A : ℤ
  N : ℤ
  M : ℤ
  m : String
  deriving Repr, DecidableEq

def metastableGeMsg : String := "Metastable level must be >= 0"

def metastableStartMsg : String := "Metastable level must start with m"

def metastableNumericMsg : String := "Metastable level must be numeric"

def metastableTypeMsg : String := "Metastable level must be integer or string"

def massIntegerMsg : String := "Mass number cannot be converted to integer"

def massGeOneMsg : String := "Mass number must be >= 1"

def unableCreateMsg : String := "Unable to create Isotope"

def negNeutronMsg : String := "Neutron number N cannot be negative"

/-- `Isotope._init_A` (lines 231-240); the argument is already an
integer here. -/
def init_A (a : ℤ) : Except Err ℤ :=
  if a < 1 then Except.error (Err.isotopeError massGeOneMsg)
  else Except.ok a

/-- `Isotope._init_m` (lines 242-275), returning the pair
`(self.m, self.M)`. -/
def init_m : MArg → Except Err (String × ℤ)
  | MArg.noneA => Except.ok ("", 0)
  | MArg.intA n =>
    if n = 0 then Except.ok ("", 0)
    else if n = 1 then Except.ok ("m", 1)
    else if 2 ≤ n then Except.ok ("m" ++ toString n, n)
    else Except.error (Err.isotopeError metastableGeMsg)
  | MArg.strA s =>
    if s = "" then Except.ok ("", 0)
    else
      let t := pyLower s
      match t.toList with
      | [] => Except.ok ("", 0)
      | c :: rest =>
        if c ≠ 'm' then Except.error (Err.isotopeError metastableStartMsg)
        else if rest.isEmpty then Except.ok (t, 1)
        else if rest.all Char.isDigit then Except.ok (t, digitsVal rest)
        else Except.error (Err.isotopeError metastableNumericMsg)

/-- The common tail of `Isotope.__init__`: set `A`, set the isomer, then
compute `N = A - Z` and reject a negative neutron number
(lines 213-214 / 220-222 and 225-229). -/
def mkIsotopeCore (e : Element) (aInt : ℤ) (mres : Except Err (String × ℤ)) :
    Except Err Isotope :=
  match init_A aInt with
  | Except.error er => Except.error er
  | Except.ok aa =>
    match mres with
    | Except.error er => Except.error er
    | Except.ok (ms, mv) =>
      let n := aa - e.Z
      if n < 0 then Except.error (Err.isotopeError negNeutronMsg)
      else Except.ok ⟨e.symbol, e.name, e.Z, aa, n, mv, ms⟩

/-- The argument shapes of `Isotope.__init__`: one descriptive string, or
an element identifier plus mass number and optional isomer specifier. -/
inductive IsoArgs where
  | ofString (s : String)
  | ofParts (elemId : String) (a : ℤ) (marg : Option MArg)
  deriving Repr, DecidableEq

/-- `Isotope.__init__` (lines 192-229). -/
def mkIsotope : IsoArgs → Except Err Isotope
  | IsoArgs.ofString s =>
    match parse_isotope s with
    | Except.error e => Except.error e
    | Except.ok (eid, aa, mm) =>
      match elementLookup eid with
      | none => Except.error (Err.isotopeError unableCreateMsg)
      | some e => mkIsotopeCore e aa (init_m (MArg.strA mm))
  | IsoArgs.ofParts eid a marg =>
    match elementLookup eid with
    | none => Except.error (Err.isotopeError unableCreateMsg)
    | some e =>
      mkIsotopeCore e a
        (match marg with
         | none => Except.ok ("", 0)
         | some ma => init_m ma)

/-- A Python float halflife: a finite value or `np.inf` (stable). -/
inductive HL where
  | finite (T : ℝ)
  | inf

/-- `np.isfinite` on a halflife. -/
def HL.isFinite : HL → Bool
  | HL.finite _ => true
  | HL.inf => false

/-- The nuclear data an `IsotopeQuantity` reads off its `Isotope`
(`halflife`, `decay_const`, and the mass number `A` used for gram
conversions); the numeric values come from the external element
database. -/
structure NucData where
  halflife : HL
  decayConst : ℝ
  A : ℝ

/-- Modelled from the spec: the element database (not under `src/`)
supplies `decay_const` = ln 2 / halflife, with 0 for a stable isotope
(infinite halflife), and a positive finite halflife. -/
def NucData.wf (nuc : NucData) : Prop :=
  match nuc.halflife with
  | HL.finite T => 0 < T ∧ nuc.decayConst = Real.log 2 / T
  | HL.inf => nuc.decayConst = 0

/-- IEEE semantics of `2**(-dt / halflife)` for a float halflife: for an
infinite halflife the exponent `-dt/inf` is zero and the factor is 1 for
every finite `dt`. -/
noncomputable def decayFactor (hl : HL) (dt : ℝ) : ℝ :=
  match hl with
  | HL.finite T => (2 : ℝ) ^ (-(dt / T))
  | HL.inf => 1

/-- An argument to a date-taking method: a native datetime (timestamp in
seconds) or a date string. -/
inductive DateArg where
  | dt (t : ℝ)
  | str (s : String)

/-- Modelled from the spec: the datetime parsing done by
`utils.handle_datetime` (module `becquerel.core.utils`, not under
`src/`); a date string is modelled as a decimal count of seconds. -/
noncomputable def parseDateString (s : String) : Option ℝ :=
  if s.length > 0 && s.toList.all Char.isDigit then some ((digitsVal s.toList : ℤ) : ℝ)
  else none

def dateParseMsg : String := "unable to parse datetime"

/-- Modelled from the spec: `utils.handle_datetime` returns a canonical
datetime for a datetime or string argument, and fails otherwise. -/
noncomputable def handle_datetime : DateArg → Except Err ℝ
  | DateArg.dt t => Except.ok t
  | DateArg.str s =>
    match parseDateString s with
    | some t => Except.ok t
    | none => Except.error (Err.typeError dateParseMsg)

def unsupportedOperandMsg : String := "unsupported operand type for subtraction"

/-- Python `stop_time - start_time` on the raw arguments: defined only
when both are native datetimes; any string operand raises `TypeError`. -/
noncomputable def rawSubSeconds : DateArg → DateArg → Except Err ℝ
  | DateArg.dt b, DateArg.dt a => Except.ok (b - a)
  | _, _ => Except.error (Err.typeError unsupportedOperandMsg)

/-- Line 10: `UCI_TO_BQ = 3.7e4`. -/
noncomputable def UCI_TO_BQ : ℝ := 3.7e4

/-- Line 11: `N_AV = 6.022141e23`. -/
noncomputable def N_AV : ℝ := 6.022141e23

/-- The quantity keyword arguments `atoms | g | bq | uci` accepted by
`IsotopeQuantity` construction and `time_when`. -/
structure KW where
  atoms : Option ℝ
  g : Option ℝ
  bq : Option ℝ
  uci : Option ℝ

def negativeQtyMsg : String := "Mass or activity must be a positive quantity"

def stableActivityMsg : String := "Cannot initialize a stable IsotopeQuantity from activity"

def missingQtyMsg : String := "Missing arg for isotope activity"

/-- `IsotopeQuantity._check_positive_qty` (lines 372-382). -/
noncomputable def checkPositiveQty (v : ℝ) : Except Err ℝ :=
  if v < 0 then Except.error (Err.valueError negativeQtyMsg)
  else Except.ok v

/-- `IsotopeQuantity._atoms_from_kwargs` (lines 339-370), an `elif`
chain keyed on which kwargs are present: `atoms`, then `g`, then `bq`
and `uci` (each guarded by `decay_const > 0`), then the stable-activity
error, then the missing-argument error. -/
noncomputable def atomsFromKwargs (nuc : NucData) (kw : KW) : Except Err ℝ :=
  match kw.atoms with
  | some v => checkPositiveQty v
  | none =>
  match kw.g with
  | some v =>
    match checkPositiveQty v with
    | Except.error e => Except.error e
    | Except.ok x => Except.ok (x / nuc.A * N_AV)
  | none =>
  match kw.bq with
  | some v =>
    if 0 < nuc.decayConst then
      match checkPositiveQty v with
      | Except.error e => Except.error e
      | Except.ok x => Except.ok (x / nuc.decayConst)
    else Except.error (Err.isotopeError stableActivityMsg)
  | none =>
  match kw.uci with
  | some v =>
    if 0 < nuc.decayConst then
      match checkPositiveQty v with
      | Except.error e => Except.error e
      | Except.ok x => Except.ok (x * UCI_TO_BQ / nuc.decayConst)
    else Except.error (Err.isotopeError stableActivityMsg)
  | none => Except.error (Err.isotopeError missingQtyMsg)

/-- An `IsotopeQuantity` (lines 312-612): nuclear data of its isotope,
reference date, `creation_date` flag, and reference atom count. -/
structure IsotopeQuantity where
  nuc : NucData
  refDate : ℝ
  creationDate : Bool
  refAtoms : ℝ

/-- `IsotopeQuantity.__init__` (lines 315-337) with an already
normalized reference date. -/
noncomputable def mkIsotopeQuantity (nuc : NucData) (refDate : ℝ)
    (creationDate : Bool) (kw : KW) : Except Err IsotopeQuantity :=
  match atomsFromKwargs nuc kw with
  | Except.error e => Except.error e
  | Except.ok a => Except.ok ⟨nuc, refDate, creationDate, a⟩

def didNotExistMsg : String := "the source did not exist at the requested date"

/-- `IsotopeQuantity.atoms_at` (lines 423-444). -/
noncomputable def IsotopeQuantity.atoms_at (q : IsotopeQuantity) (date : DateArg) :
    Except Err ℝ :=
  match handle_datetime date with
  | Except.error e => Except.error e
  | Except.ok t1 =>
    let dt := t1 - q.refDate
    if dt < 0 ∧ q.creationDate then Except.error (Err.isotopeError didNotExistMsg)
    else Except.ok (q.refAtoms * decayFactor q.nuc.halflife dt)

/-- `IsotopeQuantity.bq_at` (lines 446-452). -/
noncomputable def IsotopeQuantity.bq_at (q : IsotopeQuantity) (date : DateArg) :
    Except Err ℝ :=
  match q.atoms_at date with
  | Except.error e => Except.error e
  | Except.ok a => Except.ok (a * q.nuc.decayConst)

/-- `IsotopeQuantity.uci_at` (lines 454-460). -/
noncomputable def IsotopeQuantity.uci_at (q : IsotopeQuantity) (date : DateArg) :
    Except Err ℝ :=
  match q.bq_at date with
  | Except.error e => Except.error e
  | Except.ok b => Except.ok (b / UCI_TO_BQ)

/-- `IsotopeQuantity.g_at` (lines 462-468). -/
noncomputable def IsotopeQuantity.g_at (q : IsotopeQuantity) (date : DateArg) :
    Except Err ℝ :=
  match q.atoms_at date with
  | Except.error e => Except.error e
  | Except.ok a => Except.ok (a / N_AV * q.nuc.A)

/-- `IsotopeQuantity.decays_from` (lines 514-529). -/
noncomputable def IsotopeQuantity.decays_from (q : IsotopeQuantity)
    (start_time stop_time : DateArg) : Except Err ℝ :=
  match q.atoms_at start_time with
  | Except.error e => Except.error e
  | Except.ok a =>
    match q.atoms_at stop_time with
    | Except.error e => Except.error e
    | Except.ok b => Except.ok (a - b)

/-- `IsotopeQuantity.bq_from` (lines 531-538): the elapsed interval is
`(stop_time - start_time).total_seconds()` on the raw arguments, and the
division is unguarded (Python float division by 0.0 raises
`ZeroDivisionError`). -/
noncomputable def IsotopeQuantity.bq_from (q : IsotopeQuantity)
    (start_time stop_time : DateArg) : Except Err ℝ :=
  match q.decays_from start_time stop_time with
  | Except.error e => Except.error e
  | Except.ok d =>
    match rawSubSeconds stop_time start_time with
    | Except.error e => Except.error e
    | Except.ok el =>
      if el = 0 then Except.error Err.zeroDivisionError
      else Except.ok (d / el)

/-- `IsotopeQuantity.uci_from` (lines 540-546). -/
noncomputable def IsotopeQuantity.uci_from (q : IsotopeQuantity)
    (start_time stop_time : DateArg) : Except Err ℝ :=
  match q.bq_from start_time stop_time with
  | Except.error e => Except.error e
  | Except.ok b => Except.ok (b / UCI_TO_BQ)

def stableTimeMsg : String := "Cannot calculate time_when for stable isotope"

/-- `IsotopeQuantity.time_when` (lines 588-612): reject a non-finite
halflife, convert the kwargs to a target atom count, solve
`dt = -halflife * log2(target / ref_atoms)` (an unguarded float division
by `ref_atoms`), and return the sentinel `none` when the solution
precedes an asserted creation date. -/
noncomputable def IsotopeQuantity.time_when (q : IsotopeQuantity) (kw : KW) :
    Except Err (Option ℝ) :=
  match q.nuc.halflife with
  | HL.inf => Except.error (Err.isotopeError stableTimeMsg)
  | HL.finite T =>
    match atomsFromKwargs q.nuc kw with
    | Except.error e => Except.error e
    | Except.ok target =>
      if q.refAtoms = 0 then Except.error Err.zeroDivisionError
      else
        let dt := -T * Real.logb 2 (target / q.refAtoms)
        if dt < 0 ∧ q.creationDate then Except.ok none
        else Except.ok (some (q.refDate + dt))

def timestampsOrderMsg : String := "Timestamps out of order"

def fluenceXorMsg : String := "Must specify either n_cm2 or n_cm2_s, not both"

/-- A `NeutronIrradiation` (lines 615-643).  After `__init__`, `n_cm2`
always holds a number while `n_cm2_s` is `None` when the total fluence
was the supplied argument. -/
structure NeutronIrradiation where
  startTime : ℝ
  stopTime : ℝ
  duration : ℝ
  n_cm2 : ℝ
  n_cm2_s : Option ℝ

/-- `NeutronIrradiation.__init__` (lines 618-643). -/
noncomputable def mkNeutronIrradiation (start_time stop_time : DateArg)
    (n_cm2 n_cm2_s : Option ℝ) : Except Err NeutronIrradiation :=
  match handle_datetime start_time with
  | Except.error e => Except.error e
  | Except.ok t0 =>
    match handle_datetime stop_time with
    | Except.error e => Except.error e
    | Except.ok t1 =>
      if t1 < t0 then Except.error (Err.valueError timestampsOrderMsg)
      else
        let dur := t1 - t0
        match n_cm2, n_cm2_s with
        | some _, some _ => Except.error (Err.valueError fluenceXorMsg)
        | none, none => Except.error (Err.valueError fluenceXorMsg)
        | none, some phi => Except.ok ⟨t0, t1, dur, phi * dur, some phi⟩
        | some n, none => Except.ok ⟨t0, t1, dur, n, none⟩

def onlyOneQuantityMsg : String := "Only one IsotopeQuantity should be given"

def activatedIsoMsg : String := "Activated isotope must be specified"

def initialIsoMsg : String := "Initial isotope must be specified"

def radioactiveInitialMsg : String := "Activation not implemented for a radioactive initial isotope"

def noneOperandMsg : String := "unsupported operand type for NoneType"

def decayCoeffMsg : String := "Isotope object has no attribute decay_coeff"

/-- The forward branch of `NeutronIrradiation.activate` (lines 693-707).
For a finite-duration irradiation whose `n_cm2_s` is `None`, the product
`self.n_cm2_s * cross_section` raises `TypeError` before `atoms_at` is
evaluated (Python evaluates the product left to right). -/
noncomputable def activateForward (ni : NeutronIrradiation) (sigma : ℝ)
    (q0 : IsotopeQuantity) (ai : NucData) : Except Err IsotopeQuantity :=
  if ni.duration = 0 then
    match q0.atoms_at (DateArg.dt ni.stopTime) with
    | Except.error e => Except.error e
    | Except.ok n0 =>
      mkIsotopeQuantity ai ni.stopTime true
        ⟨none, none, some (ni.n_cm2 * sigma * n0 * ai.decayConst), none⟩
  else
    match ni.n_cm2_s with
    | none => Except.error (Err.typeError noneOperandMsg)
    | some phi =>
      match q0.atoms_at (DateArg.dt ni.stopTime) with
      | Except.error e => Except.error e
      | Except.ok n0 =>
        mkIsotopeQuantity ai ni.stopTime true
          ⟨none, none,
           some (phi * sigma * n0 * (1 - Real.exp (-(ai.decayConst * ni.duration)))),
           none⟩

/-- The backward branch of `NeutronIrradiation.activate` (lines 708-720).
In the zero-duration case the code evaluates
`activated_iso_q.bq_at(self.stop_time)` (the left operand of the
division) and then reads `activated_iso.decay_coeff` — an attribute the
`Isotope` class does not define (its properties are `halflife`, `ng_cs`
and `decay_const`, and the spec's element capability supplies no
`decay_coeff` either), so Python raises `AttributeError` there. -/
noncomputable def activateBackward (ni : NeutronIrradiation) (sigma : ℝ)
    (q1 : IsotopeQuantity) (ii ai : NucData) : Except Err IsotopeQuantity :=
  match q1.bq_at (DateArg.dt ni.stopTime) with
  | Except.error e => Except.error e
  | Except.ok a1 =>
    if ni.duration = 0 then Except.error (Err.attributeError decayCoeffMsg)
    else
      match ni.n_cm2_s with
      | none => Except.error (Err.typeError noneOperandMsg)
      | some phi =>
        let denom := phi * sigma * (1 - Real.exp (-(ai.decayConst * ni.duration)))
        if denom = 0 then Except.error Err.zeroDivisionError
        else mkIsotopeQuantity ii ni.stopTime true ⟨some (a1 / denom), none, none, none⟩

/-- `NeutronIrradiation.activate` (lines 645-720): argument validation,
defaulting of the unsupplied isotope from the supplied quantity, the
stable-initial-isotope check, barns-to-cm2 conversion, then the forward
or backward computation. -/
noncomputable def NeutronIrradiation.activate (ni : NeutronIrradiation) (barns : ℝ)
    (initial_iso_q : Option IsotopeQuantity) (initial_iso : Option NucData)
    (activated_iso_q : Option IsotopeQuantity) (activated_iso : Option NucData) :
    Except Err IsotopeQuantity :=
  match initial_iso_q, activated_iso_q with
  | some _, some _ => Except.error (Err.isotopeError onlyOneQuantityMsg)
  | none, none => Except.error (Err.isotopeError onlyOneQuantityMsg)
  | some q0, none =>
    match activated_iso with
    | none => Except.error (Err.isotopeError activatedIsoMsg)
    | some ai =>
      let ii := initial_iso.getD q0.nuc
      if ii.halflife.isFinite then Except.error (Err.notImplementedError radioactiveInitialMsg)
      else activateForward ni (barns * 1.0e-24) q0 ai
  | none, some q1 =>
    match initial_iso with
    | none => Except.error (Err.isotopeError initialIsoMsg)
    | some ii =>
      let ai := activated_iso.getD q1.nuc
      if ii.halflife.isFinite then Except.error (Err.notImplementedError radioactiveInitialMsg)
      else activateBackward ni (barns * 1.0e-24) q1 ii ai

/-! ## Helper lemmas -/

theorem atoms_at_dt_ok (q : IsotopeQuantity) (t : ℝ) (h : q.refDate ≤ t) :
    q.atoms_at (DateArg.dt t) =
      Except.ok (q.refAtoms * decayFactor q.nuc.halflife (t - q.refDate)) := by
  simp only [IsotopeQuantity.atoms_at, handle_datetime]
  rw [if_neg]
  intro hc
  have := hc.1
  linarith

theorem atoms_at_dt_err (q : IsotopeQuantity) (t : ℝ) (h1 : t < q.refDate)
    (h2 : q.creationDate = true) :
    q.atoms_at (DateArg.dt t) = Except.error (Err.isotopeError didNotExistMsg) := by
  simp only [IsotopeQuantity.atoms_at, handle_datetime]
  rw [if_pos]
  exact ⟨by linarith, h2⟩

theorem rpow_neg_one_half : (2:ℝ) ^ (-(1:ℝ)) = 1/2 := by
  rw [Real.rpow_neg (by norm_num), Real.rpow_one]
  norm_num

/-! ## C1 -/

/-- C1: for a quantity whose isotope has finite halflife `T > 0` and any
evaluation date `t` not preceding the reference date, `atoms_at` returns
`ref_atoms * 2 ^ (-dt/T)` with `dt` the elapsed seconds; in particular
it returns `ref_atoms` at the reference date and `ref_atoms / 2` one
halflife later; for an infinite halflife it returns `ref_atoms`
unchanged at every date from the reference date on. -/
theorem atoms_at_decay_law (q : IsotopeQuantity) (T : ℝ)
    (hT : q.nuc.halflife = HL.finite T) (hT0 : 0 < T)
    (t : ℝ) (ht : q.refDate ≤ t) :
    q.atoms_at (DateArg.dt t) =
      Except.ok (q.refAtoms * (2:ℝ) ^ (-((t - q.refDate) / T))) ∧
    q.atoms_at (DateArg.dt q.refDate) = Except.ok q.refAtoms ∧
    q.atoms_at (DateArg.dt (q.refDate + T)) = Except.ok (q.refAtoms / 2) ∧
    (∀ (q2 : IsotopeQuantity) (s : ℝ), q2.nuc.halflife = HL.inf → q2.refDate ≤ s →
      q2.atoms_at (DateArg.dt s) = Except.ok q2.refAtoms) := by
  refine ⟨?_, ?_, ?_, ?_⟩
  · rw [atoms_at_dt_ok q t ht, hT]
    simp [decayFactor]
  · rw [atoms_at_dt_ok q q.refDate le_rfl, hT]
    simp [decayFactor]
  · rw [atoms_at_dt_ok q (q.refDate + T) (by linarith), hT]
    simp only [decayFactor, add_sub_cancel_left]
    rw [div_self hT0.ne', rpow_neg_one_half]
    ring_nf
  · intro q2 s h2 hs
    rw [atoms_at_dt_ok q2 s hs, h2]
    simp [decayFactor]

/-- Concrete instantiation of `atoms_at_decay_law`: a one-second
halflife quantity of one atom anchored at time 0, evaluated one halflife
later. -/
theorem atoms_at_decay_law_witness :
    IsotopeQuantity.atoms_at ⟨⟨HL.finite 1, Real.log 2, 1⟩, 0, true, 1⟩
      (DateArg.dt ((0:ℝ) + 1)) = Except.ok ((1:ℝ) / 2) :=
  (atoms_at_decay_law ⟨⟨HL.finite 1, Real.log 2, 1⟩, 0, true, 1⟩ 1 rfl
    (by norm_num) 0 le_rfl).2.2.1

/-! ## C2 -/

/-- C2: with a finite positive halflife and `0 < target ≤ ref_atoms`,
`time_when(atoms=target)` returns a date at which `atoms_at` gives back
exactly `target`; when the solved time falls before the reference date
(`ref_atoms < target`) and `creation_date` is asserted, `time_when`
returns the sentinel `none` instead of a date. -/
theorem time_when_atoms_inverse (q : IsotopeQuantity) (T : ℝ)
    (hT : q.nuc.halflife = HL.finite T) (hT0 : 0 < T)
    (h0 : 0 < q.refAtoms) (target : ℝ) (htg : 0 < target) :
    (target ≤ q.refAtoms →
      ∃ t : ℝ, q.time_when ⟨some target, none, none, none⟩ = Except.ok (some t) ∧
        q.atoms_at (DateArg.dt t) = Except.ok target) ∧
    (q.refAtoms < target → q.creationDate = true →
      q.time_when ⟨some target, none, none, none⟩ = Except.ok none) := by
  have hratio : 0 < target / q.refAtoms := div_pos htg h0
  constructor
  · intro hle
    have hlogb : Real.logb 2 (target / q.refAtoms) ≤ 0 :=
      Real.logb_nonpos (by norm_num) hratio.le ((div_le_one h0).mpr hle)
    have hdt : 0 ≤ -T * Real.logb 2 (target / q.refAtoms) := by nlinarith
    refine ⟨q.refDate + -T * Real.logb 2 (target / q.refAtoms), ?_, ?_⟩
    · unfold IsotopeQuantity.time_when
      rw [hT]
      simp only [atomsFromKwargs, checkPositiveQty]
      rw [if_neg (not_lt.mpr htg.le)]
      dsimp only
      rw [if_neg h0.ne']
      rw [if_neg]
      intro hc
      exact absurd hc.1 (not_lt.mpr hdt)
    · rw [atoms_at_dt_ok q _ (by linarith), hT]
      simp only [decayFactor, add_sub_cancel_left]
      have harg : -(-T * Real.logb 2 (target / q.refAtoms) / T) =
          Real.logb 2 (target / q.refAtoms) := by
        field_simp
      rw [harg, Real.rpow_logb (by norm_num) (by norm_num) hratio]
      rw [mul_div_cancel₀ _ h0.ne']
  · intro hgt hc
    have hlogb : 0 < Real.logb 2 (target / q.refAtoms) :=
      Real.logb_pos (by norm_num) ((one_lt_div h0).mpr hgt)
    unfold IsotopeQuantity.time_when
    rw [hT]
    simp only [atomsFromKwargs, checkPositiveQty]
    rw [if_neg (not_lt.mpr htg.le)]
    dsimp only
    rw [if_neg h0.ne']
    rw [if_pos]
    exact ⟨by nlinarith, hc⟩

/-- Concrete instantiation of `time_when_atoms_inverse`: a four-atom,
one-second-halflife quantity anchored at 0 with target two atoms. -/
theorem time_when_atoms_inverse_witness :
    ∃ t : ℝ,
      IsotopeQuantity.time_when ⟨⟨HL.finite 1, Real.log 2, 1⟩, 0, true, 4⟩
        ⟨some 2, none, none, none⟩ = Except.ok (some t) ∧
      IsotopeQuantity.atoms_at ⟨⟨HL.finite 1, Real.log 2, 1⟩, 0, true, 4⟩
        (DateArg.dt t) = Except.ok 2 :=
  (time_when_atoms_inverse ⟨⟨HL.finite 1, Real.log 2, 1⟩, 0, true, 4⟩ 1 rfl
    (by norm_num) (by norm_num) 2 (by norm_num)).1 (by norm_num)

/-! ## C5 -/

theorem halflife_inf_of_decayConst_zero (nuc : NucData) (hwf : nuc.wf)
    (h : nuc.decayConst = 0) : nuc.halflife = HL.inf := by
  cases hh : nuc.halflife with
  | inf => rfl
  | finite T =>
    unfold NucData.wf at hwf
    rw [hh] at hwf
    obtain ⟨hT, hdc⟩ := hwf
    rw [h] at hdc
    have hl2 : 0 < Real.log 2 := Real.log_pos (by norm_num)
    have hpos : 0 < Real.log 2 / T := div_pos hl2 hT
    rw [← hdc] at hpos
    exact absurd hpos (lt_irrefl 0)

/-- C5: for an isotope with decay constant 0 (equivalently, by the
spec's λ = ln2/halflife law, an infinite halflife), constructing an
`IsotopeQuantity` from `bq=` or `uci=` fails with the stable-activity
`IsotopeError` (the spec's `QuantityInputError`), `time_when` fails with
the stable-isotope `IsotopeError` (the spec's
`UnsupportedOperationError`), while `atoms=` and `g=` succeed. -/
theorem stable_isotope_guard (nuc : NucData) (hwf : nuc.wf)
    (hdc : nuc.decayConst = 0) (d : ℝ) (c : Bool) (v : ℝ) (hv : 0 ≤ v)
    (q : IsotopeQuantity) (hq : q.nuc = nuc) (kw : KW) :
    mkIsotopeQuantity nuc d c ⟨none, none, some v, none⟩ =
      Except.error (Err.isotopeError stableActivityMsg) ∧
    mkIsotopeQuantity nuc d c ⟨none, none, none, some v⟩ =
      Except.error (Err.isotopeError stableActivityMsg) ∧
    q.time_when kw = Except.error (Err.isotopeError stableTimeMsg) ∧
    mkIsotopeQuantity nuc d c ⟨some v, none, none, none⟩ =
      Except.ok ⟨nuc, d, c, v⟩ ∧
    mkIsotopeQuantity nuc d c ⟨none, some v, none, none⟩ =
      Except.ok ⟨nuc, d, c, v / nuc.A * N_AV⟩ := by
  have hinf : nuc.halflife = HL.inf := halflife_inf_of_decayConst_zero nuc hwf hdc
  refine ⟨?_, ?_, ?_, ?_, ?_⟩
  · simp only [mkIsotopeQuantity, atomsFromKwargs]
    rw [hdc, if_neg (lt_irrefl 0)]
  · simp only [mkIsotopeQuantity, atomsFromKwargs]
    rw [hdc, if_neg (lt_irrefl 0)]
  · unfold IsotopeQuantity.time_when
    rw [hq, hinf]
  · simp only [mkIsotopeQuantity, atomsFromKwargs, checkPositiveQty]
    rw [if_neg (not_lt.mpr hv)]
  · simp only [mkIsotopeQuantity, atomsFromKwargs, checkPositiveQty]
    rw [if_neg (not_lt.mpr hv)]

/-- Concrete instantiation of `stable_isotope_guard`: a stable
(infinite-halflife, zero-decay-constant) isotope of mass number 12. -/
theorem stable_isotope_guard_witness :
    mkIsotopeQuantity ⟨HL.inf, 0, 12⟩ 0 true ⟨none, none, some 3, none⟩ =
      Except.error (Err.isotopeError stableActivityMsg) :=
  (stable_isotope_guard ⟨HL.inf, 0, 12⟩ rfl rfl 0 true 3 (by norm_num)
    ⟨⟨HL.inf, 0, 12⟩, 0, true, 5⟩ rfl ⟨some 1, none, none, none⟩).1

/-! ## C6 -/

/-- C6 counterexample: supplying both `atoms=1` and `g=2` does not fail
as ambiguous; the `elif` chain of `_atoms_from_kwargs` silently uses
`atoms` and ignores `g`, so construction succeeds with one atom. -/
theorem kwargs_ambiguity_cex :
    mkIsotopeQuantity ⟨HL.inf, 0, 1⟩ 0 true ⟨some 1, some 2, none, none⟩ =
      Except.ok ⟨⟨HL.inf, 0, 1⟩, 0, true, 1⟩ := by
  simp only [mkIsotopeQuantity, atomsFromKwargs, checkPositiveQty]
  rw [if_neg (by norm_num : ¬ (1:ℝ) < 0)]

/-- C6 amended: construction and `time_when` require at least one of
`atoms | g | bq | uci` — none supplied fails with the missing-argument
error and a negative supplied value fails with `ValueError` — but
supplying several does not fail: the first of `atoms`, `g`, `bq`, `uci`
in that priority order is used and the others are silently ignored. -/
theorem kwargs_contract (nuc : NucData) (kw : KW) :
    (kw.atoms = none → kw.g = none → kw.bq = none → kw.uci = none →
      atomsFromKwargs nuc kw = Except.error (Err.isotopeError missingQtyMsg)) ∧
    (∀ v : ℝ, kw.atoms = some v → 0 ≤ v → atomsFromKwargs nuc kw = Except.ok v) ∧
    (∀ v : ℝ, kw.atoms = some v → v < 0 →
      atomsFromKwargs nuc kw = Except.error (Err.valueError negativeQtyMsg)) ∧
    (∀ v : ℝ, kw.atoms = none → kw.g = some v → v < 0 →
      atomsFromKwargs nuc kw = Except.error (Err.valueError negativeQtyMsg)) ∧
    (∀ v : ℝ, kw.atoms = none → kw.g = none → kw.bq = some v →
      0 < nuc.decayConst → v < 0 →
      atomsFromKwargs nuc kw = Except.error (Err.valueError negativeQtyMsg)) ∧
    (∀ v : ℝ, kw.atoms = none → kw.g = none → kw.bq = none → kw.uci = some v →
      0 < nuc.decayConst → v < 0 →
      atomsFromKwargs nuc kw = Except.error (Err.valueError negativeQtyMsg)) ∧
    (∀ (q : IsotopeQuantity) (T : ℝ), q.nuc.halflife = HL.finite T →
      q.nuc = nuc → kw.atoms = none → kw.g = none → kw.bq = none → kw.uci = none →
      q.time_when kw = Except.error (Err.isotopeError missingQtyMsg)) ∧
    (∀ (d : ℝ) (c : Bool) (a : ℝ), atomsFromKwargs nuc kw = Except.ok a →
      mkIsotopeQuantity nuc d c kw = Except.ok ⟨nuc, d, c, a⟩) := by
  refine ⟨?_, ?_, ?_, ?_, ?_, ?_, ?_, ?_⟩
  · intro h1 h2 h3 h4
    simp only [atomsFromKwargs]
    rw [h1, h2, h3, h4]
  · intro v h1 h2
    simp only [atomsFromKwargs, checkPositiveQty]
    rw [h1]
    dsimp only
    rw [if_neg (not_lt.mpr h2)]
  · intro v h1 h2
    simp only [atomsFromKwargs, checkPositiveQty]
    rw [h1]
    dsimp only
    rw [if_pos h2]
  · intro v h1 h2 h3
    simp only [atomsFromKwargs, checkPositiveQty]
    rw [h1, h2]
    dsimp only
    rw [if_pos h3]
  · intro v h1 h2 h3 h4 h5
    simp only [atomsFromKwargs, checkPositiveQty]
    rw [h1, h2, h3]
    dsimp only
    rw [if_pos h4, if_pos h5]
  · intro v h1 h2 h3 h4 h5 h6
    simp only [atomsFromKwargs, checkPositiveQty]
    rw [h1, h2, h3, h4]
    dsimp only
    rw [if_pos h5, if_pos h6]
  · intro q T hT hq h1 h2 h3 h4
    unfold IsotopeQuantity.time_when
    rw [hT]
    simp only [atomsFromKwargs]
    rw [hq, h1, h2, h3, h4]
  · intro d c a h
    simp only [mkIsotopeQuantity]
    rw [h]

/-- Concrete instantiation of `kwargs_contract`: no kwarg supplied
fails with the missing-argument error. -/
theorem kwargs_contract_witness :
    atomsFromKwargs ⟨HL.inf, 0, 1⟩ ⟨none, none, none, none⟩ =
      Except.error (Err.isotopeError missingQtyMsg) :=
  (kwargs_contract ⟨HL.inf, 0, 1⟩ ⟨none, none, none, none⟩).1 rfl rfl rfl rfl

/-! ## C7 -/

/-- C7: with `creation_date` asserted, single-point evaluation
(`atoms_at` and the derived `bq_at`, `uci_at`, `g_at`) at a date
strictly before the reference date fails with the did-not-exist
`IsotopeError`, whereas a `time_when` query whose algebraic solution
`-T * log2(target/ref_atoms)` falls strictly before the reference date
returns the sentinel `none` rather than raising. -/
theorem temporal_order_behaviour (q : IsotopeQuantity) (hc : q.creationDate = true)
    (t : ℝ) (ht : t < q.refDate) (T target : ℝ)
    (hT : q.nuc.halflife = HL.finite T) (h0 : 0 < q.refAtoms) (htg : 0 ≤ target)
    (hsol : -T * Real.logb 2 (target / q.refAtoms) < 0) :
    q.atoms_at (DateArg.dt t) = Except.error (Err.isotopeError didNotExistMsg) ∧
    q.bq_at (DateArg.dt t) = Except.error (Err.isotopeError didNotExistMsg) ∧
    q.uci_at (DateArg.dt t) = Except.error (Err.isotopeError didNotExistMsg) ∧
    q.g_at (DateArg.dt t) = Except.error (Err.isotopeError didNotExistMsg) ∧
    q.time_when ⟨some target, none, none, none⟩ = Except.ok none := by
  have ha := atoms_at_dt_err q t ht hc
  refine ⟨ha, ?_, ?_, ?_, ?_⟩
  · unfold IsotopeQuantity.bq_at
    rw [ha]
  · unfold IsotopeQuantity.uci_at IsotopeQuantity.bq_at
    rw [ha]
  · unfold IsotopeQuantity.g_at
    rw [ha]
  · unfold IsotopeQuantity.time_when
    rw [hT]
    simp only [atomsFromKwargs, checkPositiveQty]
    rw [if_neg (not_lt.mpr htg)]
    dsimp only
    rw [if_neg h0.ne']
    rw [if_pos ⟨hsol, hc⟩]

/-- Concrete instantiation of `temporal_order_behaviour`: a four-atom
quantity created at time 10, evaluated at time 5, with a `time_when`
target of eight atoms (twice the reference amount). -/
theorem temporal_order_behaviour_witness :
    IsotopeQuantity.atoms_at ⟨⟨HL.finite 1, Real.log 2, 1⟩, 10, true, 4⟩
      (DateArg.dt 5) = Except.error (Err.isotopeError didNotExistMsg) ∧
    IsotopeQuantity.time_when ⟨⟨HL.finite 1, Real.log 2, 1⟩, 10, true, 4⟩
      ⟨some 8, none, none, none⟩ = Except.ok none := by
  have h := temporal_order_behaviour ⟨⟨HL.finite 1, Real.log 2, 1⟩, 10, true, 4⟩
    rfl 5 (by norm_num) 1 8 rfl (by norm_num) (by norm_num)
    (by
      have h84 : ((8:ℝ) / 4) = 2 := by norm_num
      rw [h84, Real.logb_self_eq_one (by norm_num)]
      norm_num)
  exact ⟨h.1, h.2.2.2.2⟩

/-! ## C8 -/

/-- C8 counterexample: supplying the total fluence `n_cm2 = 100` over a
10-second irradiation succeeds, but the unsupplied fluence-rate field is
left as the `None` sentinel — it is not derived from the supplied
fluence and the duration (which would be `100 / 10`). -/
theorem irradiation_rate_not_derived_cex :
    mkNeutronIrradiation (DateArg.dt 0) (DateArg.dt 10) (some 100) none =
      Except.ok ⟨0, 10, 10, 100, none⟩ ∧
    (none : Option ℝ) ≠ some ((100:ℝ) / 10) := by
  constructor
  · simp only [mkNeutronIrradiation, handle_datetime]
    rw [if_neg (by norm_num : ¬ (10:ℝ) < 0)]
    norm_num [NeutronIrradiation.mk.injEq]
  · simp

/-- C8 amended: `NeutronIrradiation` fails when the stop time precedes
the start time and when both or neither of `n_cm2` and `n_cm2_s` are
supplied; on success the duration is `(stop - start)` in seconds; when
the fluence rate is supplied the total fluence is derived as
`n = phi * duration`, but when the total fluence is supplied the rate
field is left as the `None` sentinel instead of being derived. -/
theorem neutron_irradiation_init (t0 t1 : ℝ) :
    (∀ n phi : Option ℝ, t1 < t0 →
      mkNeutronIrradiation (DateArg.dt t0) (DateArg.dt t1) n phi =
        Except.error (Err.valueError timestampsOrderMsg)) ∧
    (∀ a b : ℝ, t0 ≤ t1 →
      mkNeutronIrradiation (DateArg.dt t0) (DateArg.dt t1) (some a) (some b) =
        Except.error (Err.valueError fluenceXorMsg)) ∧
    (t0 ≤ t1 →
      mkNeutronIrradiation (DateArg.dt t0) (DateArg.dt t1) none none =
        Except.error (Err.valueError fluenceXorMsg)) ∧
    (∀ b : ℝ, t0 ≤ t1 →
      mkNeutronIrradiation (DateArg.dt t0) (DateArg.dt t1) none (some b) =
        Except.ok ⟨t0, t1, t1 - t0, b * (t1 - t0), some b⟩) ∧
    (∀ a : ℝ, t0 ≤ t1 →
      mkNeutronIrradiation (DateArg.dt t0) (DateArg.dt t1) (some a) none =
        Except.ok ⟨t0, t1, t1 - t0, a, none⟩) := by
  refine ⟨?_, ?_, ?_, ?_, ?_⟩
  · intro n phi h
    simp only [mkNeutronIrradiation, handle_datetime]
    rw [if_pos h]
  · intro a b h
    simp only [mkNeutronIrradiation, handle_datetime]
    rw [if_neg (not_lt.mpr h)]
  · intro h
    simp only [mkNeutronIrradiation, handle_datetime]
    rw [if_neg (not_lt.mpr h)]
  · intro b h
    simp only [mkNeutronIrradiation, handle_datetime]
    rw [if_neg (not_lt.mpr h)]
  · intro a h
    simp only [mkNeutronIrradiation, handle_datetime]
    rw [if_neg (not_lt.mpr h)]

/-- Concrete instantiation of `neutron_irradiation_init`: a fluence rate
of 3 over ten seconds yields a derived total fluence `3 * 10`. -/
theorem neutron_irradiation_init_witness :
    mkNeutronIrradiation (DateArg.dt 0) (DateArg.dt 10) none (some 3) =
      Except.ok ⟨0, 10, (10:ℝ) - 0, 3 * ((10:ℝ) - 0), some 3⟩ :=
  (neutron_irradiation_init 0 10).2.2.2.1 3 (by norm_num)

/-! ## C10 -/

theorem atoms_at_str_ok (q : IsotopeQuantity) (s : String) (t : ℝ)
    (hp : parseDateString s = some t) (h : q.refDate ≤ t) :
    q.atoms_at (DateArg.str s) =
      Except.ok (q.refAtoms * decayFactor q.nuc.halflife (t - q.refDate)) := by
  simp only [IsotopeQuantity.atoms_at, handle_datetime]
  rw [hp]
  dsimp only
  rw [if_neg]
  intro hc
  have := hc.1
  linarith

/-- C10: `bq_from` (and `uci_from`) subtract their raw arguments instead
of normalizing them, so date strings that `atoms_at` and `decays_from`
accept raise `TypeError` there; and with `start_time = stop_time` the
elapsed interval is 0.0 and the unguarded division raises
`ZeroDivisionError` rather than a domain error. -/
theorem bq_from_raw_interval (q : IsotopeQuantity) (s1 s2 : String) (t u : ℝ)
    (h1 : parseDateString s1 = some t) (h2 : parseDateString s2 = some u)
    (ht : q.refDate ≤ t) (hu : q.refDate ≤ u) :
    (∃ a, q.atoms_at (DateArg.str s1) = Except.ok a) ∧
    (∃ d, q.decays_from (DateArg.str s1) (DateArg.str s2) = Except.ok d) ∧
    q.bq_from (DateArg.str s1) (DateArg.str s2) =
      Except.error (Err.typeError unsupportedOperandMsg) ∧
    q.uci_from (DateArg.str s1) (DateArg.str s2) =
      Except.error (Err.typeError unsupportedOperandMsg) ∧
    (∀ r : ℝ, q.refDate ≤ r →
      q.bq_from (DateArg.dt r) (DateArg.dt r) = Except.error Err.zeroDivisionError) := by
  have e1 := atoms_at_str_ok q s1 t h1 ht
  have e2 := atoms_at_str_ok q s2 u h2 hu
  have ed : q.decays_from (DateArg.str s1) (DateArg.str s2) =
      Except.ok (q.refAtoms * decayFactor q.nuc.halflife (t - q.refDate) -
        q.refAtoms * decayFactor q.nuc.halflife (u - q.refDate)) := by
    unfold IsotopeQuantity.decays_from
    rw [e1, e2]
  have eb : q.bq_from (DateArg.str s1) (DateArg.str s2) =
      Except.error (Err.typeError unsupportedOperandMsg) := by
    unfold IsotopeQuantity.bq_from
    rw [ed]
    rfl
  refine ⟨⟨_, e1⟩, ⟨_, ed⟩, eb, ?_, ?_⟩
  · unfold IsotopeQuantity.uci_from
    rw [eb]
  · intro r hr
    have er := atoms_at_dt_ok q r hr
    unfold IsotopeQuantity.bq_from IsotopeQuantity.decays_from
    rw [er]
    simp only [rawSubSeconds]
    rw [if_pos (sub_self r)]

/-- Concrete instantiation of `bq_from_raw_interval`: the date strings
"5" and "7" are accepted by `atoms_at` but make `bq_from` raise
`TypeError`. -/
theorem bq_from_raw_interval_witness :
    IsotopeQuantity.bq_from ⟨⟨HL.finite 1, Real.log 2, 1⟩, 0, true, 4⟩
      (DateArg.str "5") (DateArg.str "7") =
      Except.error (Err.typeError unsupportedOperandMsg) := by
  have h5 : parseDateString "5" = some 5 := by
    simp only [parseDateString]
    rw [if_pos]
    · rw [show digitsVal (("5" : String).toList) = (5:ℤ) from rfl]
      norm_num
    · decide
  have h7 : parseDateString "7" = some 7 := by
    simp only [parseDateString]
    rw [if_pos]
    · rw [show digitsVal (("7" : String).toList) = (7:ℤ) from rfl]
      norm_num
    · decide
  exact (bq_from_raw_interval ⟨⟨HL.finite 1, Real.log 2, 1⟩, 0, true, 4⟩
    "5" "7" 5 7 h5 h7 (by norm_num) (by norm_num)).2.2.1

/-! ## C4 -/

/-- C4 counterexample: in "129IODINE" the longest split whose alphabetic
token resolves is "IODINE" (iodine, symbol "I"), so longest-token
selection would parse to ("I", 129, ground state); the code instead
keeps the candidate with the longest canonical symbol — "NE" resolving
to "Ne" — and then fails to convert the leftover mass string "129IODI",
so `parse_isotope` raises instead of returning the iodine parse. -/
theorem parse_longest_token_cex :
    resolvedCandidates ("129IODINE").toList = [("I", "129"), ("Ne", "129IODI")] ∧
    elementLookup "IODINE" = some ⟨"I", "Iodine", 53⟩ ∧
    parse_isotope "129IODINE" = Except.error (Err.isotopeError massConvertMsg) ∧
    parse_isotope "129IODINE" ≠ Except.ok ("I", 129, "") := by
  have hp : parse_isotope "129IODINE" = Except.error (Err.isotopeError massConvertMsg) := rfl
  refine ⟨rfl, rfl, hp, ?_⟩
  rw [hp]
  intro h
  exact Except.noConfusion h

theorem foldl_chooseFirst_spec (cands : List (String × String)) :
    ∀ init : String × String,
      (cands.foldl (fun acc c => if acc.1.length < c.1.length then c else acc) init = init ∧
        ∀ c ∈ cands, c.1.length ≤ init.1.length) ∨
      (∃ l1 l2,
        cands = l1 ++
          (cands.foldl (fun acc c => if acc.1.length < c.1.length then c else acc) init) :: l2 ∧
        init.1.length <
          (cands.foldl (fun acc c => if acc.1.length < c.1.length then c else acc) init).1.length ∧
        (∀ c ∈ l1, c.1.length <
          (cands.foldl (fun acc c => if acc.1.length < c.1.length then c else acc) init).1.length) ∧
        (∀ c ∈ l2, c.1.length ≤
          (cands.foldl (fun acc c => if acc.1.length < c.1.length then c else acc) init).1.length)) := by
  induction cands with
  | nil =>
    intro init
    exact Or.inl ⟨rfl, by simp⟩
  | cons hd tl ih =>
    intro init
    simp only [List.foldl_cons]
    by_cases hc : init.1.length < hd.1.length
    · rw [if_pos hc]
      rcases ih hd with ⟨heq, hall⟩ | ⟨l1, l2, hsplit, hgt, hl1, hl2⟩
      · refine Or.inr ⟨[], tl, ?_, ?_, ?_, ?_⟩
        · rw [heq, List.nil_append]
        · rw [heq]
          exact hc
        · intro c hcm
          exact absurd hcm (List.not_mem_nil c)
        · intro c hcm
          rw [heq]
          exact hall c hcm
      · refine Or.inr ⟨hd :: l1, l2, ?_, lt_trans hc hgt, ?_, hl2⟩
        · rw [List.cons_append]
          exact congrArg (List.cons hd) hsplit
        · intro c hcm
          rcases List.mem_cons.mp hcm with rfl | hcm
          · exact hgt
          · exact hl1 c hcm
    · rw [if_neg hc]
      rcases ih init with ⟨heq, hall⟩ | ⟨l1, l2, hsplit, hgt, hl1, hl2⟩
      · refine Or.inl ⟨heq, ?_⟩
        intro c hcm
        rcases List.mem_cons.mp hcm with rfl | hcm
        · exact not_lt.mp hc
        · exact hall c hcm
      · refine Or.inr ⟨hd :: l1, l2, ?_, hgt, ?_, hl2⟩
        · rw [List.cons_append]
          exact congrArg (List.cons hd) hsplit
        · intro c hcm
          rcases List.mem_cons.mp hcm with rfl | hcm
          · exact lt_of_le_of_lt (not_lt.mp hc) hgt
          · exact hl1 c hcm

theorem chooseLongest_first (cands : List (String × String))
    (hex : ∃ c ∈ cands, 0 < c.1.length) :
    ∃ l1 l2, cands = l1 ++ chooseLongest cands :: l2 ∧
      (∀ c ∈ l1, c.1.length < (chooseLongest cands).1.length) ∧
      (∀ c ∈ l2, c.1.length ≤ (chooseLongest cands).1.length) := by
  obtain ⟨c0, hc0, hl0⟩ := hex
  unfold chooseLongest
  rcases foldl_chooseFirst_spec cands ("", "") with ⟨heq, hall⟩ | ⟨l1, l2, hsplit, hgt, hl1, hl2⟩
  · exfalso
    have hle := hall c0 hc0
    have h00 : ((("" : String), ("" : String)) : String × String).1.length = 0 := rfl
    rw [h00] at hle
    omega
  · exact ⟨l1, l2, hsplit, hl1, hl2⟩

theorem chooseLongest_spec (cands : List (String × String))
    (hex : ∃ c ∈ cands, 0 < c.1.length) :
    chooseLongest cands ∈ cands ∧
    ∀ c ∈ cands, c.1.length ≤ (chooseLongest cands).1.length := by
  obtain ⟨l1, l2, hsplit, hl1, hl2⟩ := chooseLongest_first cands hex
  constructor
  · have hmem : chooseLongest cands ∈ l1 ++ chooseLongest cands :: l2 :=
      List.mem_append_right l1 (List.mem_cons_self _ _)
    rw [← hsplit] at hmem
    exact hmem
  · intro c hcm
    rw [hsplit] at hcm
    rcases List.mem_append.mp hcm with hcm | hcm
    · exact (hl1 c hcm).le
    · rcases List.mem_cons.mp hcm with rfl | hcm
      · exact le_rfl
      · exact hl2 c hcm

theorem resolvedCandidates_symbol (l : List Char) (c : String × String)
    (h : c ∈ resolvedCandidates l) : ∃ e ∈ elementTable, c.1 = e.symbol := by
  unfold resolvedCandidates at h
  rw [List.mem_filterMap] at h
  obtain ⟨pr, hpr, hc⟩ := h
  cases hcand : candidateOf pr.2 pr.1 with
  | none =>
    rw [hcand] at hc
    exact absurd hc (by simp)
  | some pep =>
    obtain ⟨pe, pm⟩ := pep
    rw [hcand] at hc
    dsimp only at hc
    cases hlook : elementLookup (String.mk pe) with
    | none =>
      rw [hlook] at hc
      exact absurd hc (by simp)
    | some e =>
      rw [hlook] at hc
      simp only [Option.some.injEq] at hc
      refine ⟨e, ?_, ?_⟩
      · unfold elementLookup at hlook
        exact List.mem_of_find?_eq_some hlook
      · rw [← hc]

theorem elementTable_symbol_pos : ∀ e ∈ elementTable, 0 < e.symbol.length := by decide

theorem elementTable_symbol_lookup :
    ∀ e ∈ elementTable, (elementLookup e.symbol).isSome = true := by decide

/-- C4 amended: for a hyphen-free isotope string the parser collects
every split whose alphabetic-leading part resolves in the element
database and fails (with the could-not-find-element error) if none
resolve; among the resolved candidates it selects the one whose
**canonical element symbol** (not the raw token) is longest, the
earliest candidate winning ties — the chosen one splits the candidate
list so that every earlier candidate has a strictly shorter symbol and
every later one a symbol no longer; the three cited examples parse as
claimed ("m" and "m2" being the isomer codes for levels 1 and 2). -/
theorem parse_longest_symbol (arg : String)
    (hnh : arg.toList.contains '-' = false) :
    (resolvedCandidates arg.toList = [] →
      parse_isotope arg = Except.error (Err.isotopeError noElementMsg)) ∧
    (resolvedCandidates arg.toList ≠ [] →
      ∃ em : String × String, split_element_mass arg = Except.ok em ∧
        (∀ c ∈ resolvedCandidates arg.toList, c.1.length ≤ em.1.length) ∧
        ∃ l1 l2, resolvedCandidates arg.toList = l1 ++ em :: l2 ∧
          (∀ c ∈ l1, c.1.length < em.1.length) ∧
          (∀ c ∈ l2, c.1.length ≤ em.1.length)) ∧
    parse_isotope "238U" = Except.ok ("U", 238, "") ∧
    parse_isotope "Tc-99m" = Except.ok ("Tc", 99, "m") ∧
    parse_isotope "178M2HF" = Except.ok ("Hf", 178, "m2") := by
  refine ⟨?_, ?_, rfl, rfl, rfl⟩
  · intro h0
    unfold parse_isotope split_element_mass splitRaw
    rw [hnh, if_neg (show ¬ (false = true) by simp), h0]
  · intro hne
    have hsym : ∀ c ∈ resolvedCandidates arg.toList, ∃ e ∈ elementTable, c.1 = e.symbol :=
      fun c hc => resolvedCandidates_symbol _ c hc
    obtain ⟨c0, cs, heq⟩ := List.exists_cons_of_ne_nil hne
    have hc0m : c0 ∈ resolvedCandidates arg.toList := by
      rw [heq]
      exact List.mem_cons_self _ _
    have hex : ∃ c ∈ resolvedCandidates arg.toList, 0 < c.1.length := by
      obtain ⟨e, he, hs⟩ := hsym c0 hc0m
      exact ⟨c0, hc0m, hs ▸ elementTable_symbol_pos e he⟩
    have hcl := chooseLongest_spec _ hex
    have hdec := chooseLongest_first _ hex
    have hraw : splitRaw arg = Except.ok (chooseLongest (resolvedCandidates arg.toList)) := by
      unfold splitRaw
      rw [hnh, if_neg (show ¬ (false = true) by simp)]
      rw [heq]
    obtain ⟨e, he, hs⟩ := hsym _ hcl.1
    have hlook : (elementLookup (chooseLongest (resolvedCandidates arg.toList)).1).isSome = true := by
      rw [hs]
      exact elementTable_symbol_lookup e he
    refine ⟨chooseLongest (resolvedCandidates arg.toList), ?_, hcl.2, hdec⟩
    unfold split_element_mass
    rw [hraw]
    rcases hch : chooseLongest (resolvedCandidates arg.toList) with ⟨e1, m1⟩
    rw [hch] at hlook
    dsimp only
    cases hl2 : elementLookup e1 with
    | none =>
      rw [hl2] at hlook
      exact absurd hlook (by simp)
    | some e2 => rfl

/-- Concrete instantiation of `parse_longest_symbol` at "178M2HF": the
chosen candidate ("Hf", "178M2") splits the candidate list with the
strictly-shorter-symbol prefix empty. -/
theorem parse_longest_symbol_witness :
    ∃ em : String × String, split_element_mass "178M2HF" = Except.ok em ∧
      (∀ c ∈ resolvedCandidates ("178M2HF").toList, c.1.length ≤ em.1.length) ∧
      ∃ l1 l2, resolvedCandidates ("178M2HF").toList = l1 ++ em :: l2 ∧
        (∀ c ∈ l1, c.1.length < em.1.length) ∧
        (∀ c ∈ l2, c.1.length ≤ em.1.length) :=
  (parse_longest_symbol "178M2HF" rfl).2.1
    (by
      rw [show resolvedCandidates ("178M2HF").toList =
        [("Hf", "178M2"), ("F", "178M2H")] from rfl]
      simp)

/-! ## C9 -/

theorem stringMk_toList (s : String) : String.mk s.toList = s := rfl

/-- The isomer-encoding relation the constructed `m` strings actually
satisfy: empty for the ground state, or `"m"` followed by a (possibly
empty, possibly non-canonical) digit string whose decimal value is `M`;
`"m"` alone means `M = 1`. -/
def isomerEncodingOf (s : String) (v : ℤ) : Prop :=
  (s = "" ∧ v = 0) ∨
  (s = "m" ∧ v = 1) ∨
  (2 ≤ v ∧ s = "m" ++ toString v) ∨
  (∃ ds : List Char, ds ≠ [] ∧ ds.all Char.isDigit = true ∧
    s = String.mk ('m' :: ds) ∧ v = digitsVal ds)

theorem init_m_spec (ma : MArg) (s : String) (v : ℤ)
    (h : init_m ma = Except.ok (s, v)) : 0 ≤ v ∧ isomerEncodingOf s v := by
  cases ma with
  | noneA =>
    simp only [init_m, Except.ok.injEq, Prod.mk.injEq] at h
    obtain ⟨hs, hv⟩ := h
    rw [← hs, ← hv]
    exact ⟨le_rfl, Or.inl ⟨rfl, rfl⟩⟩
  | intA n =>
    simp only [init_m] at h
    split_ifs at h with h0 h1 h2
    · simp only [Except.ok.injEq, Prod.mk.injEq] at h
      obtain ⟨hs, hv⟩ := h
      rw [← hs, ← hv]
      exact ⟨le_rfl, Or.inl ⟨rfl, rfl⟩⟩
    · simp only [Except.ok.injEq, Prod.mk.injEq] at h
      obtain ⟨hs, hv⟩ := h
      rw [← hs, ← hv]
      exact ⟨by omega, Or.inr (Or.inl ⟨rfl, rfl⟩)⟩
    · simp only [Except.ok.injEq, Prod.mk.injEq] at h
      obtain ⟨hs, hv⟩ := h
      rw [← hs, ← hv]
      exact ⟨by omega, Or.inr (Or.inr (Or.inl ⟨h2, rfl⟩))⟩
  | strA str =>
    simp only [init_m] at h
    split_ifs at h with hs0
    · simp only [Except.ok.injEq, Prod.mk.injEq] at h
      obtain ⟨hs, hv⟩ := h
      rw [← hs, ← hv]
      exact ⟨le_rfl, Or.inl ⟨rfl, rfl⟩⟩
    · cases hmt : (pyLower str).toList with
      | nil =>
        rw [hmt] at h
        dsimp only at h
        simp only [Except.ok.injEq, Prod.mk.injEq] at h
        obtain ⟨hs, hv⟩ := h
        rw [← hs, ← hv]
        exact ⟨le_rfl, Or.inl ⟨rfl, rfl⟩⟩
      | cons c rest =>
        rw [hmt] at h
        dsimp only at h
        by_cases hcm : c = 'm'
        · rw [if_neg (fun hne => hne hcm)] at h
          by_cases hre : rest.isEmpty = true
          · rw [if_pos hre] at h
            simp only [Except.ok.injEq, Prod.mk.injEq] at h
            obtain ⟨hs, hv⟩ := h
            have hrest : rest = [] := List.isEmpty_iff.mp hre
            have hsm : s = "m" := by
              rw [← hs, ← stringMk_toList (pyLower str), hmt, hcm, hrest]
            rw [← hv]
            exact ⟨by norm_num, Or.inr (Or.inl ⟨hsm, rfl⟩)⟩
          · rw [if_neg hre] at h
            by_cases hdig : rest.all Char.isDigit = true
            · rw [if_pos hdig] at h
              simp only [Except.ok.injEq, Prod.mk.injEq] at h
              obtain ⟨hs, hv⟩ := h
              have hrest : rest ≠ [] := by
                intro hnil
                rw [hnil] at hre
                exact hre rfl
              refine ⟨?_, Or.inr (Or.inr (Or.inr ⟨rest, hrest, hdig, ?_, hv.symm⟩))⟩
              · rw [← hv]
                simp only [digitsVal]
                exact Int.ofNat_nonneg _
              · rw [← hs, ← stringMk_toList (pyLower str), hmt, hcm]
            · rw [if_neg hdig] at h
              exact absurd h (by simp)
        · rw [if_pos hcm] at h
          exact absurd h (by simp)

theorem mkIsotopeCore_spec (e : Element) (aInt : ℤ) (mres : Except Err (String × ℤ))
    (iso : Isotope) (h : mkIsotopeCore e aInt mres = Except.ok iso) :
    1 ≤ iso.A ∧ 0 ≤ iso.N ∧ iso.N = iso.A - iso.Z ∧
    mres = Except.ok (iso.m, iso.M) := by
  unfold mkIsotopeCore init_A at h
  by_cases h1 : aInt < 1
  · rw [if_pos h1] at h
    exact absurd h (by simp)
  · rw [if_neg h1] at h
    dsimp only at h
    cases mres with
    | error er => exact absurd h (by simp)
    | ok p =>
      obtain ⟨ms, mv⟩ := p
      dsimp only at h
      by_cases h2 : aInt - e.Z < 0
      · rw [if_pos h2] at h
        exact absurd h (by simp)
      · rw [if_neg h2] at h
        simp only [Except.ok.injEq] at h
        subst h
        refine ⟨?_, ?_, rfl, rfl⟩
        · show 1 ≤ aInt
          omega
        · show 0 ≤ aInt - e.Z
          omega

/-- C9 counterexample: the string-isomer construction path stores the
input string verbatim (lowercased), so `Isotope("Tc", 99, "m1")`
succeeds with `M = 1` but `m = "m1"`, while the claimed encoding rule
demands `m = "m"` exactly when `M = 1`. -/
theorem isotope_isomer_encoding_cex :
    mkIsotope (IsoArgs.ofParts "Tc" 99 (some (MArg.strA "m1"))) =
      Except.ok ⟨"Tc", "Technetium", 43, 99, 56, 1, "m1"⟩ ∧
    ("m1" : String) ≠ "m" := by
  refine ⟨rfl, ?_⟩
  intro hcontra
  simp at hcontra

/-- C9 amended: every successfully constructed `Isotope`, on every
construction path, satisfies `A ≥ 1`, `N = A - Z ≥ 0` and `M ≥ 0`, and
its `m` string is `"m"` followed by a digit string encoding `M` (empty
for the ground state); the encoding is not the claimed bijection,
however: the string path stores its input verbatim, so non-canonical
spellings such as "m1" (for canonical "m") are kept. -/
theorem isotope_invariants (args : IsoArgs) (iso : Isotope)
    (h : mkIsotope args = Except.ok iso) :
    1 ≤ iso.A ∧ 0 ≤ iso.N ∧ iso.N = iso.A - iso.Z ∧ 0 ≤ iso.M ∧
    isomerEncodingOf iso.m iso.M := by
  cases args with
  | ofString s =>
    simp only [mkIsotope] at h
    cases hp : parse_isotope s with
    | error e0 =>
      rw [hp] at h
      exact absurd h (by simp)
    | ok trip =>
      obtain ⟨eid, aa, mm⟩ := trip
      rw [hp] at h
      dsimp only at h
      cases hl : elementLookup eid with
      | none =>
        rw [hl] at h
        exact absurd h (by simp)
      | some e =>
        rw [hl] at h
        dsimp only at h
        have hc := mkIsotopeCore_spec e aa _ iso h
        have hm := init_m_spec (MArg.strA mm) iso.m iso.M hc.2.2.2
        exact ⟨hc.1, hc.2.1, hc.2.2.1, hm.1, hm.2⟩
  | ofParts eid a marg =>
    simp only [mkIsotope] at h
    cases hl : elementLookup eid with
    | none =>
      rw [hl] at h
      exact absurd h (by simp)
    | some e =>
      rw [hl] at h
      dsimp only at h
      have hc := mkIsotopeCore_spec e a _ iso h
      cases marg with
      | none =>
        have hme := hc.2.2.2
        dsimp only at hme
        simp only [Except.ok.injEq, Prod.mk.injEq] at hme
        obtain ⟨hs, hv⟩ := hme
        refine ⟨hc.1, hc.2.1, hc.2.2.1, ?_, ?_⟩
        · rw [← hv]
        · exact Or.inl ⟨hs.symm, hv.symm⟩
      | some ma =>
        have hm := init_m_spec ma iso.m iso.M hc.2.2.2
        exact ⟨hc.1, hc.2.1, hc.2.2.1, hm.1, hm.2⟩

/-- Concrete instantiation of `isotope_invariants` at `Isotope("Tc-99m")`. -/
theorem isotope_invariants_witness :
    (1:ℤ) ≤ 99 ∧ (0:ℤ) ≤ 56 ∧ (56:ℤ) = 99 - 43 ∧ (0:ℤ) ≤ 1 ∧
    isomerEncodingOf "m" 1 :=
  isotope_invariants (IsoArgs.ofString "Tc-99m")
    ⟨"Tc", "Technetium", 43, 99, 56, 1, "m"⟩ rfl

/-! ## C3 -/

theorem bq_at_ref (q : IsotopeQuantity) (T : ℝ)
    (hT : q.nuc.halflife = HL.finite T) :
    q.bq_at (DateArg.dt q.refDate) = Except.ok (q.refAtoms * q.nuc.decayConst) := by
  unfold IsotopeQuantity.bq_at
  rw [atoms_at_dt_ok q q.refDate le_rfl, hT]
  simp [decayFactor]

/-- Modelled from the spec: the backward zero-duration activation
equation `N0 = A1 / (n * sigma * lambda)` given in the `activate`
docstring and the spec, reading λ as `decay_const` (the `decay_coeff`
attribute the code names does not exist on `Isotope`). -/
noncomputable def backwardActivateZeroSpec (n sigma a1 lam : ℝ) : ℝ :=
  a1 / (n * sigma * lam)

/-- The initial atom count the intended backward equation recovers in
the concrete activation example: total fluence 2, cross-section 3 barns,
activated activity `40 * ln 2` Bq at the stop time. -/
noncomputable def activationExampleN0 : ℝ :=
  backwardActivateZeroSpec 2 (3 * 1.0e-24) (40 * Real.log 2) (Real.log 2)

/-- C3: the backward zero-duration `activate` call does not recover the
initial atom count — it raises `AttributeError`, because it reads the
nonexistent `decay_coeff` attribute of the activated isotope.  A
zero-duration irradiation with fluence 2 constructs; the backward call
on an activated quantity of activity `40 ln 2` Bq fails with
`AttributeError`; with the intended equation (λ = `decay_const`, as in
the docstring's `N0 = A1 / (n sigma lambda)`) the recovered `N0` does
round-trip: the forward `activate` call on `N0` initial atoms reproduces
the activity `40 ln 2` at the stop time. -/
theorem activate_backward_zero_duration_bug :
    mkNeutronIrradiation (DateArg.dt 0) (DateArg.dt 0) (some 2) none =
      Except.ok ⟨0, 0, 0 - 0, 2, none⟩ ∧
    NeutronIrradiation.activate ⟨0, 0, 0, 2, none⟩ 3
      none (some ⟨HL.inf, 0, 10⟩)
      (some ⟨⟨HL.finite 1, Real.log 2, 7⟩, 0, true, 40⟩) none =
      Except.error (Err.attributeError decayCoeffMsg) ∧
    (∃ qf : IsotopeQuantity,
      NeutronIrradiation.activate ⟨0, 0, 0, 2, none⟩ 3
        (some ⟨⟨HL.inf, 0, 10⟩, 0, true, activationExampleN0⟩) none
        none (some ⟨HL.finite 1, Real.log 2, 7⟩) = Except.ok qf ∧
      qf.bq_at (DateArg.dt 0) = Except.ok (40 * Real.log 2)) := by
  have hl2 : (0:ℝ) < Real.log 2 := Real.log_pos (by norm_num)
  have hN0 : 0 < activationExampleN0 := by
    unfold activationExampleN0 backwardActivateZeroSpec
    apply div_pos
    · positivity
    · positivity
  refine ⟨?_, ?_, ?_⟩
  · simp only [mkNeutronIrradiation, handle_datetime]
    rw [if_neg (by norm_num : ¬ (0:ℝ) < 0)]
  · simp only [NeutronIrradiation.activate, Option.getD]
    dsimp only [HL.isFinite]
    rw [if_neg (by simp : ¬ (false = true))]
    simp only [activateBackward]
    rw [bq_at_ref ⟨⟨HL.finite 1, Real.log 2, 7⟩, 0, true, 40⟩ 1 rfl]
    dsimp only
    rw [if_pos trivial]
  · have hbq : ¬ ((2:ℝ) * (3 * 1.0e-24) * (activationExampleN0 * 1) * Real.log 2 < 0) := by
      push_neg
      positivity
    refine ⟨⟨⟨HL.finite 1, Real.log 2, 7⟩, 0, true,
      2 * (3 * 1.0e-24) * (activationExampleN0 * 1) * Real.log 2 / Real.log 2⟩, ?_, ?_⟩
    · simp only [NeutronIrradiation.activate, Option.getD]
      dsimp only [HL.isFinite]
      rw [if_neg (by simp : ¬ (false = true))]
      simp only [activateForward]
      rw [if_pos trivial]
      rw [atoms_at_dt_ok ⟨⟨HL.inf, 0, 10⟩, 0, true, activationExampleN0⟩ 0 le_rfl]
      dsimp only [decayFactor]
      simp only [mkIsotopeQuantity, atomsFromKwargs, checkPositiveQty]
      rw [if_pos hl2, if_neg hbq]
    · rw [bq_at_ref _ 1 rfl]
      dsimp only
      rw [div_mul_cancel₀ _ hl2.ne']
      unfold activationExampleN0 backwardActivateZeroSpec
      field_simp
      ring
